import Mathlib

/-!
Verification of the Reddit-summarizer pipeline
(`src/app/api/summarize/route.ts`).

Strings are modelled as `List Char` (`Str`).  JavaScript values that can be
missing or falsy are modelled with `Option`.  The external world (the Google
search call, the per-candidate Reddit fetch and Groq summarization calls, and
the final Groq synthesis call) is modelled as an `Env` of oracle outcomes, and
the `POST` handler body from the search call onwards is the pure function
`runPipeline`, which also emits a trace of the external calls it performs.
-/

namespace RedditSummarizer

abbrev Str := List Char

/-- Model of the JavaScript expression `s.includes(pat)` for strings:
substring containment. -/
def strIncludes : Str → Str → Bool
  | [], pat => pat.isEmpty
  | c :: t, pat => pat.isPrefixOf (c :: t) || strIncludes t pat

/-- Model of JavaScript `String.prototype.toLowerCase` on the ASCII range. -/
def jsToLower (s : Str) : Str := s.map Char.toLower

/-- Whitespace characters stripped by JavaScript `String.prototype.trim`
(space, tab, newline, carriage return, vertical tab, form feed). -/
def isJsSpace (c : Char) : Bool :=
  (c == ' ') || (c == '\t') || (c == '\n') || (c == '\r') ||
    (c == Char.ofNat 11) || (c == Char.ofNat 12)

/-- Model of JavaScript `String.prototype.trim`. -/
def jsTrim (s : Str) : Str :=
  ((s.dropWhile isJsSpace).reverse.dropWhile isJsSpace).reverse

/-- The constant `IRRELEVANT_SUMMARY_KEYWORDS` from `route.ts`. -/
def IRRELEVANT_SUMMARY_KEYWORDS : List Str :=
  [ "does not provide any information".toList,
    "is not about".toList,
    "no relevant information".toList,
    "unrelated to the question".toList,
    "has nothing to do with".toList,
    "not relevant to the question".toList,
    "irrelevant to the question".toList ]

/-- The constant `MAX_REDDIT_POSTS_TO_PROCESS` from `route.ts`. -/
def MAX_REDDIT_POSTS_TO_PROCESS : Nat := 5

/-- The constant `MAX_COMMENTS_PER_POST` from `route.ts`. -/
def MAX_COMMENTS_PER_POST : Nat := 3

/-- The source function `isSummaryRelevant`: lower-case the summary and require
that none of the irrelevance keywords is contained in it. -/
def isSummaryRelevant (summary : Str) : Bool :=
  !(IRRELEVANT_SUMMARY_KEYWORDS.any fun keyword =>
      strIncludes (jsToLower summary) keyword)

/-- The source function `calculateConfidence`:
`Math.min(50 + relevantSourcesCount * 10, 95)`. -/
def calculateConfidence (relevantSourcesCount : Nat) : Nat :=
  min (50 + relevantSourcesCount * 10) 95

/-- Characters matched by the regex character class `[a-z0-9]` under the `/i`
flag used in `extractRedditSubmissionId`. -/
def isIdChar (c : Char) : Bool :=
  (decide ('a' ≤ c) && decide (c ≤ 'z')) ||
    (decide ('A' ≤ c) && decide (c ≤ 'Z')) ||
    (decide ('0' ≤ c) && decide (c ≤ '9'))

/-- Case-insensitive literal matching for the `/i` regex literals: if `pat` is
a prefix of `s` up to ASCII case, return the rest of `s`. -/
def dropLitCI : Str → Str → Option Str
  | [], s => some s
  | _ :: _, [] => none
  | p :: ps, c :: cs => if p.toLower = c.toLower then dropLitCI ps cs else none

/-- Attempt to match the regex
`reddit\.com\/r\/[^\/]+\/comments\/([a-z0-9]{6,10})(\/|$)` (flag `/i`)
at the start of `s`, returning the captured group.  The greedy
sub-expressions have unique viable extents here (`[^\/]+` cannot end before a
non-slash character because the next literal starts with `/`, and
`[a-z0-9]{6,10}` cannot stop inside an alphanumeric run because the follower
must be `/` or end of input), so no backtracking search is needed. -/
def matchAt (s : Str) : Option Str :=
  match dropLitCI "reddit.com/r/".toList s with
  | none => none
  | some r1 =>
    let sub := r1.takeWhile fun c => c != '/'
    let r2 := r1.dropWhile fun c => c != '/'
    if sub.isEmpty then none
    else
      match dropLitCI "/comments/".toList r2 with
      | none => none
      | some r3 =>
        let idRun := r3.takeWhile isIdChar
        let r4 := r3.dropWhile isIdChar
        if 6 ≤ idRun.length ∧ idRun.length ≤ 10 then
          match r4 with
          | [] => some idRun
          | c :: _ => if c = '/' then some idRun else none
        else none

/-- Scan for the leftmost regex match, as JavaScript `String.prototype.match`
does with a non-global regex. -/
def findMatch : Str → Option Str
  | [] => matchAt []
  | c :: t =>
    match matchAt (c :: t) with
    | some i => some i
    | none => findMatch t

/-- The source function `extractRedditSubmissionId`. -/
def extractRedditSubmissionId (url : Str) : Option Str := findMatch url

/-- A Google Custom Search result item; only the `link` field is consumed by
the pipeline.  `none` models a missing or falsy link (or a falsy item). -/
structure SearchItem where
  link : Option Str

/-- The per-item guard and extraction from the discovery loop:
`item && item.link && item.link.includes('reddit.com')` followed by
`extractRedditSubmissionId(item.link)`; `none` when the item contributes no
candidate id. -/
def linkCandidate (item : SearchItem) : Option Str :=
  match item.link with
  | none => none
  | some l =>
    if strIncludes l "reddit.com".toList then extractRedditSubmissionId l
    else none

/-- The candidate-discovery loop body from the `POST` handler: walk the search
items, collect extracted submission ids into an insertion-ordered set, and
stop as soon as `MAX_REDDIT_POSTS_TO_PROCESS` unique ids are held (the cap is
checked after every item, matching the placement of the `break`). -/
def discoverIds : List SearchItem → List Str → List Str
  | [], acc => acc
  | item :: rest, acc =>
    let acc2 :=
      match linkCandidate item with
      | some i => if i ∈ acc then acc else acc ++ [i]
      | none => acc
    if MAX_REDDIT_POSTS_TO_PROCESS ≤ acc2.length then acc2
    else discoverIds rest acc2

/-- A Reddit comment as consumed by the pipeline: a body and a possibly
missing or falsy numeric score. -/
structure RedditComment where
  body : Str
  score : Option Int
deriving DecidableEq

/-- The effective score used by the sort comparator `(b.score || 0) - (a.score || 0)`:
a missing or falsy score counts as `0`. -/
def effScore (c : RedditComment) : Int := c.score.getD 0

/-- The order imposed by the comparator: `a` may come before `b` exactly when
`effScore b ≤ effScore a` (descending by effective score). -/
def scoreGE (a b : RedditComment) : Prop := effScore b ≤ effScore a

instance : DecidableRel scoreGE := fun a b =>
  inferInstanceAs (Decidable (effScore b ≤ effScore a))

instance : IsTotal RedditComment scoreGE :=
  ⟨fun a b => le_total (effScore b) (effScore a)⟩

instance : IsTrans RedditComment scoreGE :=
  ⟨fun _ _ _ hab hbc => le_trans hbc hab⟩

/-- The excerpt selector from the `POST` handler:
`submission.comments.sort((a, b) => (b.score || 0) - (a.score || 0)).slice(0, MAX_COMMENTS_PER_POST)`.
JavaScript `Array.prototype.sort` is specified to be stable, so its result is
the unique stable descending reordering, here realized by `insertionSort`. -/
def topComments (comments : List RedditComment) : List RedditComment :=
  (comments.insertionSort scoreGE).take MAX_COMMENTS_PER_POST

/-- A fetched Reddit submission as consumed by the pipeline.  `comments = none`
models a missing or non-array `comments` field. -/
structure Submission where
  permalink : Option Str
  title : Str
  selftext : Option Str
  comments : Option (List RedditComment)

/-- A thrown error object as inspected by the handler: it may or may not carry
a numeric `statusCode` field. -/
structure JsError where
  statusCode : Option Int
deriving DecidableEq

/-- The outcomes of the two external calls made for one candidate id:
the snoowrap fetch and the Groq summarization call.  For the summarization,
`Except.ok none` models a response with missing or absent message content,
and `Except.ok (some s)` a response whose content is `s` (before trimming). -/
structure CandidateWorld where
  fetchRes : Except JsError Submission
  summRes : Except JsError (Option Str)

/-- An initial summary record `{ summary, source_link }` pushed by the loop. -/
structure ThreadSummary where
  summary : Str
  source_link : Str
deriving DecidableEq

/-- External calls performed by the pipeline, for the execution trace. -/
inductive Event where
  | search
  | fetch (id : Str)
  | summarize (id : Str)
  | synthesize
deriving DecidableEq

/-- One iteration of the per-candidate loop: fetch the submission, check the
comments, select the top comments, call the summarizer, and push a summary if
a non-empty trimmed summary text came back.  `Except.error e` is the abort
path taken when a thrown error carries `statusCode === 401`; `Except.ok none`
is the non-fatal skip; `Except.ok (some s)` records the produced summary.  The
second component is the list of external calls performed. -/
def processCandidate (w : CandidateWorld) (submissionId : Str) :
    Except JsError (Option ThreadSummary) × List Event :=
  match w.fetchRes with
  | .error e =>
    (if e.statusCode = some 401 then .error e else .ok none,
     [Event.fetch submissionId])
  | .ok submission =>
    let postLink := "https://reddit.com".toList ++ submission.permalink.getD []
    match submission.comments with
    | none => (.ok none, [Event.fetch submissionId])
    | some cs =>
      if cs.isEmpty then (.ok none, [Event.fetch submissionId])
      else if (topComments cs).isEmpty then (.ok none, [Event.fetch submissionId])
      else
        match w.summRes with
        | .error e =>
          (if e.statusCode = some 401 then .error e else .ok none,
           [Event.fetch submissionId, Event.summarize submissionId])
        | .ok content =>
          match content with
          | none => (.ok none, [Event.fetch submissionId, Event.summarize submissionId])
          | some c =>
            let t := jsTrim c
            (if t.isEmpty then .ok none else .ok (some ⟨t, postLink⟩),
             [Event.fetch submissionId, Event.summarize submissionId])

/-- The whole per-candidate loop: sequential, aborting at the first candidate
whose processing throws an error with `statusCode === 401`, otherwise
collecting the produced summaries in candidate order. -/
def runCandidates (world : Str → CandidateWorld) :
    List Str → Except JsError (List ThreadSummary) × List Event
  | [] => (.ok [], [])
  | i :: rest =>
    match processCandidate (world i) i with
    | (.error e, ev) => (.error e, ev)
    | (.ok o, ev) =>
      match runCandidates world rest with
      | (.error e, ev2) => (.error e, ev ++ ev2)
      | (.ok l, ev2) =>
        (.ok (match o with | none => l | some s => s :: l), ev ++ ev2)

/-- The oracle outcomes of every external call a request can make. -/
structure Env where
  searchOutcome : Except Str (List SearchItem)
  world : Str → CandidateWorld
  synthOutcome : Except JsError (Option Str)

/-- A JSON response produced by the handler: either the success payload
`{ finalSummary, sources, confidenceScore }` or `{ error }` with a status. -/
inductive ApiResponse where
  | success (finalSummary : Str) (sources : List Str) (confidenceScore : Nat)
  | jsonError (message : Str) (status : Nat)
deriving DecidableEq

/-- The fixed not-found message returned when discovery yields no ids. -/
def NOT_FOUND_MSG : Str :=
  "Could not find relevant Reddit discussions via Google for this question.".toList

/-- The fixed message returned when no summary passes the relevance filter
(the apostrophe is spelled via its code point). -/
def UNANSWERABLE_MSG : Str :=
  "Found some Reddit discussions via Google, but couldn".toList ++
    (Char.ofNat 39 :: "t extract direct answers.".toList)

/-- The fixed body of the 401 error response. -/
def AUTH_FAILED_MSG : Str := "Reddit authentication failed.".toList

/-- The fallback when the synthesis response has empty or missing content. -/
def NO_SYNTH_MSG : Str := "Could not synthesize a final answer.".toList

/-- The fixed message used when the synthesis call throws. -/
def SYNTH_ERROR_MSG : Str :=
  "Error occurred while synthesizing the final answer.".toList

/-- The `POST` handler body from the Google search call onwards, as a pure
function of the oracle outcomes, paired with the trace of external calls. -/
def runPipeline (env : Env) : ApiResponse × List Event :=
  match env.searchOutcome with
  | .error msg => (.jsonError msg 500, [Event.search])
  | .ok items =>
    let redditSubmissionIds := discoverIds items []
    if redditSubmissionIds.length = 0 then
      (.success NOT_FOUND_MSG [] 0, [Event.search])
    else
      match runCandidates env.world redditSubmissionIds with
      | (.error _, ev) => (.jsonError AUTH_FAILED_MSG 401, Event.search :: ev)
      | (.ok initialSummaries, ev) =>
        let relevantSummaries :=
          initialSummaries.filter fun s => isSummaryRelevant s.summary
        if relevantSummaries.length = 0 then
          (.success UNANSWERABLE_MSG [] 15, Event.search :: ev)
        else
          let relevantSources := relevantSummaries.map ThreadSummary.source_link
          let finalSummaryText :=
            match env.synthOutcome with
            | .error _ => SYNTH_ERROR_MSG
            | .ok content =>
              match content with
              | none => NO_SYNTH_MSG
              | some c => if (jsTrim c).isEmpty then NO_SYNTH_MSG else jsTrim c
          (.success finalSummaryText relevantSources
              (calculateConfidence relevantSources.length),
           Event.search :: (ev ++ [Event.synthesize]))

/-- The relevance filter applied to the produced summaries, as in step 3 of
the handler. -/
def relevantOf (sums : List ThreadSummary) : List ThreadSummary :=
  sums.filter fun s => isSummaryRelevant s.summary

/-- The sequence of candidate ids contributed by the search items, in search
result order, before deduplication and capping. -/
def extractedIds (items : List SearchItem) : List Str :=
  items.filterMap linkCandidate

/-- Keep-first deduplication against an already-seen accumulator. -/
def dedupFirst : List Str → List Str → List Str
  | [], _ => []
  | x :: xs, seen =>
    if x ∈ seen then dedupFirst xs seen else x :: dedupFirst xs (seen ++ [x])

section HelperLemmas

lemma topComments_ne_nil {cs : List RedditComment} (h : cs ≠ []) :
    topComments cs ≠ [] := by
  have h1 : 0 < cs.length := List.length_pos.mpr h
  have h2 : 0 < (topComments cs).length := by
    simp only [topComments, List.length_take, List.length_insertionSort,
      MAX_COMMENTS_PER_POST]
    omega
  exact List.length_pos.mp h2

lemma processCandidate_events (w : CandidateWorld) (i : Str) :
    (processCandidate w i).2 = [Event.fetch i] ∨
      (processCandidate w i).2 = [Event.fetch i, Event.summarize i] := by
  simp only [processCandidate]
  split
  · simp
  · split
    · simp
    · split
      · simp
      · split
        · simp
        · split
          · simp
          · split <;> simp

lemma no_synth_processCandidate (w : CandidateWorld) (i : Str) :
    Event.synthesize ∉ (processCandidate w i).2 := by
  rcases processCandidate_events w i with h | h <;> simp [h]

lemma no_synth_runCandidates (world : Str → CandidateWorld) :
    ∀ ids : List Str, Event.synthesize ∉ (runCandidates world ids).2 := by
  intro ids
  induction ids with
  | nil => simp [runCandidates]
  | cons i rest ih =>
    simp only [runCandidates]
    rcases hpc : processCandidate (world i) i with ⟨r, ev⟩
    have hev : Event.synthesize ∉ ev := by
      have := no_synth_processCandidate (world i) i
      rw [hpc] at this
      exact this
    rcases r with e | o
    · simpa using hev
    · rcases hrc : runCandidates world rest with ⟨r2, ev2⟩
      have hev2 : Event.synthesize ∉ ev2 := by
        have := ih
        rw [hrc] at this
        exact this
      rcases r2 with e2 | l <;> simp [List.mem_append, hev, hev2]

end HelperLemmas

/-- C5: a summary is relevant exactly when its lower-cased text contains none
of the seven irrelevance markers; in particular containment of the marker
string matching case-insensitively always excludes, and the filter applied in
step 3 of the handler keeps exactly the relevant summaries as an
order-preserving subsequence of its input. -/
theorem c5_relevance_filter (s : Str) (l : List ThreadSummary) :
    (isSummaryRelevant s = true ↔
      ∀ k ∈ IRRELEVANT_SUMMARY_KEYWORDS, strIncludes (jsToLower s) k = false)
    ∧ (strIncludes (jsToLower s) "is not about".toList = true →
        isSummaryRelevant s = false)
    ∧ List.Sublist (relevantOf l) l
    ∧ ∀ t, t ∈ relevantOf l ↔ t ∈ l ∧ isSummaryRelevant t.summary = true := by
  refine ⟨?_, ?_, List.filter_sublist l, fun t => List.mem_filter⟩
  · simp [isSummaryRelevant, List.any_eq_false]
  · intro h
    simp only [isSummaryRelevant, Bool.not_eq_false', List.any_eq_true]
    exact ⟨"is not about".toList, by simp [IRRELEVANT_SUMMARY_KEYWORDS], h⟩

/-- C7: the excerpt selector produces the first `MAX_COMMENTS_PER_POST`
elements of the stable descending reordering of the comments by effective
score (missing or falsy score counting as 0): the reordering is a permutation
of the input, is sorted descending by effective score, and keeps the relative
input order of any pair already in descending-or-equal order (hence of any
pair of equal effective scores). -/
theorem c7_excerpt_selector (cs : List RedditComment) :
    topComments cs = (cs.insertionSort scoreGE).take MAX_COMMENTS_PER_POST
    ∧ (cs.insertionSort scoreGE).Perm cs
    ∧ (cs.insertionSort scoreGE).Pairwise (fun a b => effScore b ≤ effScore a)
    ∧ ∀ a b : RedditComment, List.Sublist [a, b] cs → effScore b ≤ effScore a →
        List.Sublist [a, b] (cs.insertionSort scoreGE) := by
  refine ⟨rfl, List.perm_insertionSort scoreGE cs, ?_, ?_⟩
  · exact List.sorted_insertionSort scoreGE cs
  · intro a b hsub hle
    exact List.pair_sublist_insertionSort hle hsub

/-- C10: a fetched submission whose comments list is present and non-empty
always has a non-empty top-comments truncation, so the skip branch guarding an
empty truncation is unreachable and the summarization call is always made for
such a thread. -/
theorem c10_topk_nonempty (w : CandidateWorld) (i : Str) (sub : Submission)
    (cs : List RedditComment) (hf : w.fetchRes = .ok sub)
    (hc : sub.comments = some cs) (hne : cs ≠ []) :
    topComments cs ≠ [] ∧ Event.summarize i ∈ (processCandidate w i).2 := by
  refine ⟨topComments_ne_nil hne, ?_⟩
  have hemp : cs.isEmpty = false := by
    simp [List.isEmpty_iff, hne]
  have htop : (topComments cs).isEmpty = false := by
    simp [List.isEmpty_iff, topComments_ne_nil hne]
  simp only [processCandidate, hf, hc, hemp, htop, Bool.false_eq_true, if_false]
  rcases w.summRes with e | co
  · simp
  · rcases co with _ | c <;> simp

/-- C1: in every run whose response is a success carrying at least one source
(exactly the runs in which `N ≥ 1` relevant summaries survived filtering and
were used in synthesis, `N` being the number of sources), the confidence score
equals `min(50 + 10 × N, 95)`; moreover `calculateConfidence` yields 60 at
`N = 1`, 80 at `N = 3`, and never exceeds the ceiling 95. -/
theorem c1_confidence_formula (env : Env) (f : Str) (src : List Str)
    (conf : Nat) (tr : List Event)
    (h : runPipeline env = (.success f src conf, tr)) (hne : src ≠ []) :
    conf = min (50 + 10 * src.length) 95
    ∧ calculateConfidence 1 = 60 ∧ calculateConfidence 3 = 80
    ∧ ∀ n : Nat, calculateConfidence n ≤ 95 := by
  refine ⟨?_, by decide, by decide, fun n => Nat.min_le_right _ _⟩
  obtain ⟨so, world, synth⟩ := env
  rcases so with msg | items
  · simp [runPipeline] at h
  · simp only [runPipeline] at h
    split at h
    · simp only [Prod.mk.injEq, ApiResponse.success.injEq] at h
      obtain ⟨⟨-, h2, -⟩, -⟩ := h
      exact absurd h2.symm hne
    · split at h
      · simp at h
      · split at h
        · simp only [Prod.mk.injEq, ApiResponse.success.injEq] at h
          obtain ⟨⟨-, h2, -⟩, -⟩ := h
          exact absurd h2.symm hne
        · simp only [Prod.mk.injEq, ApiResponse.success.injEq] at h
          obtain ⟨⟨-, h2, h3⟩, -⟩ := h
          subst h2
          subst h3
          simp only [calculateConfidence]
          omega

/-- C3: when the search succeeds but zero candidate ids are extracted, the
pipeline short-circuits to exactly the fixed not-found payload with empty
sources and confidence 0, and the execution trace contains only the search
call: no fetch, summarization, or synthesis is performed. -/
theorem c3_no_candidates (env : Env) (items : List SearchItem)
    (hs : env.searchOutcome = .ok items) (hz : discoverIds items [] = []) :
    runPipeline env =
      (.success
          "Could not find relevant Reddit discussions via Google for this question.".toList
          [] 0,
        [Event.search]) := by
  obtain ⟨so, world, synth⟩ := env
  have hs2 : so = Except.ok items := hs
  subst hs2
  simp [runPipeline, hz, NOT_FOUND_MSG]

/-- The summary contributed by one candidate id, `none` when it was skipped
(or would have aborted). -/
def candSummary (world : Str → CandidateWorld) (i : Str) : Option ThreadSummary :=
  match (processCandidate (world i) i).1 with
  | .ok o => o
  | .error _ => none

section PipelineLemmas

lemma runCandidates_ok_filterMap (world : Str → CandidateWorld) :
    ∀ (ids : List Str) (sums : List ThreadSummary) (ev : List Event),
      runCandidates world ids = (.ok sums, ev) →
      sums = ids.filterMap (candSummary world) := by
  intro ids
  induction ids with
  | nil =>
    intro sums ev h
    simp only [runCandidates, Prod.mk.injEq, Except.ok.injEq] at h
    simp [← h.1]
  | cons i rest ih =>
    intro sums ev h
    simp only [runCandidates] at h
    rcases hpc : processCandidate (world i) i with ⟨r, ev1⟩
    rw [hpc] at h
    rcases r with e | o
    · simp at h
    · rcases hrc : runCandidates world rest with ⟨r2, ev2⟩
      rw [hrc] at h
      rcases r2 with e2 | l
      · simp at h
      · simp only [Prod.mk.injEq, Except.ok.injEq] at h
        obtain ⟨h1, -⟩ := h
        simp only [List.filterMap_cons, candSummary, hpc]
        rcases o with _ | s
        · simp only at h1
          rw [← h1]
          exact ih l ev2 hrc
        · simp only at h1
          rw [← h1, ih l ev2 hrc]

lemma runPipeline_reaches_filter
    (items : List SearchItem) (sums : List ThreadSummary) (ev : List Event)
    (world : Str → CandidateWorld) (synth : Except JsError (Option Str))
    (hnz : discoverIds items [] ≠ [])
    (hrc : runCandidates world (discoverIds items []) = (.ok sums, ev)) :
    runPipeline ⟨.ok items, world, synth⟩ =
      if (relevantOf sums).length = 0 then
        (.success UNANSWERABLE_MSG [] 15, Event.search :: ev)
      else
        (.success
            (match synth with
              | .error _ => SYNTH_ERROR_MSG
              | .ok none => NO_SYNTH_MSG
              | .ok (some c) => if (jsTrim c).isEmpty then NO_SYNTH_MSG else jsTrim c)
            ((relevantOf sums).map ThreadSummary.source_link)
            (calculateConfidence ((relevantOf sums).map ThreadSummary.source_link).length),
          Event.search :: (ev ++ [Event.synthesize])) := by
  have hlen : ¬ (discoverIds items []).length = 0 := by
    simpa [List.length_eq_zero] using hnz
  simp only [runPipeline, hrc, hlen, if_false, relevantOf]
  rcases synth with er | co
  · simp
  · rcases co with _ | c <;> simp

end PipelineLemmas

/-- C4: when candidates were found but no produced summary passes the
relevance filter, the response is exactly the fixed unanswerable payload with
empty sources and confidence 15, and no synthesis call occurs. -/
theorem c4_unanswerable (env : Env) (items : List SearchItem)
    (sums : List ThreadSummary) (ev : List Event)
    (hs : env.searchOutcome = .ok items)
    (hnz : discoverIds items [] ≠ [])
    (hrc : runCandidates env.world (discoverIds items []) = (.ok sums, ev))
    (hf : relevantOf sums = []) :
    runPipeline env = (.success UNANSWERABLE_MSG [] 15, Event.search :: ev)
    ∧ Event.synthesize ∉ (runPipeline env).2 := by
  obtain ⟨so, world, synth⟩ := env
  have hs2 : so = Except.ok items := hs
  subst hs2
  replace hrc : runCandidates world (discoverIds items []) = (.ok sums, ev) := hrc
  have hmain := runPipeline_reaches_filter items sums ev world synth hnz hrc
  rw [hf] at hmain
  simp only [List.length_nil, if_pos rfl] at hmain
  refine ⟨hmain, ?_⟩
  rw [hmain]
  have hev : Event.synthesize ∉ ev := by
    have h2 := no_synth_runCandidates world (discoverIds items [])
    rw [hrc] at h2
    exact h2
  simp [hev]

/-- C8: once at least one relevant summary exists, the request always returns
a success response whose sources are the relevant links and whose confidence
is computed from their count, whatever the synthesis call does; a thrown
synthesis error yields the fixed synthesis-error message and an empty or
missing synthesis response yields the fixed could-not-synthesize message,
never an error response. -/
theorem c8_synthesis_degrades (env : Env) (items : List SearchItem)
    (sums : List ThreadSummary) (ev : List Event)
    (hs : env.searchOutcome = .ok items)
    (hnz : discoverIds items [] ≠ [])
    (hrc : runCandidates env.world (discoverIds items []) = (.ok sums, ev))
    (hrel : relevantOf sums ≠ []) :
    (∃ f : Str, runPipeline env =
        (.success f ((relevantOf sums).map ThreadSummary.source_link)
            (calculateConfidence (relevantOf sums).length),
          Event.search :: (ev ++ [Event.synthesize])))
    ∧ (∀ er : JsError, env.synthOutcome = .error er →
        runPipeline env =
          (.success SYNTH_ERROR_MSG
              ((relevantOf sums).map ThreadSummary.source_link)
              (calculateConfidence (relevantOf sums).length),
            Event.search :: (ev ++ [Event.synthesize])))
    ∧ (env.synthOutcome = .ok none →
        runPipeline env =
          (.success NO_SYNTH_MSG ((relevantOf sums).map ThreadSummary.source_link)
              (calculateConfidence (relevantOf sums).length),
            Event.search :: (ev ++ [Event.synthesize])))
    ∧ (∀ c : Str, env.synthOutcome = .ok (some c) → jsTrim c = [] →
        runPipeline env =
          (.success NO_SYNTH_MSG ((relevantOf sums).map ThreadSummary.source_link)
              (calculateConfidence (relevantOf sums).length),
            Event.search :: (ev ++ [Event.synthesize]))) := by
  obtain ⟨so, world, synth⟩ := env
  have hs2 : so = Except.ok items := hs
  subst hs2
  replace hrc : runCandidates world (discoverIds items []) = (.ok sums, ev) := hrc
  have hmain := runPipeline_reaches_filter items sums ev world synth hnz hrc
  have hrl : ¬ (relevantOf sums).length = 0 := by
    simpa [List.length_eq_zero] using hrel
  rw [if_neg hrl, List.length_map] at hmain
  refine ⟨⟨_, hmain⟩, ?_, ?_, ?_⟩
  · intro er her
    have her2 : synth = Except.error er := her
    subst her2
    exact hmain
  · intro hnone
    have hn2 : synth = Except.ok none := hnone
    subst hn2
    exact hmain
  · intro c hc htrim
    have hc2 : synth = Except.ok (some c) := hc
    subst hc2
    have hemp : (jsTrim c).isEmpty = true := by simp [List.isEmpty_iff, htrim]
    rw [hmain]
    simp [hemp]

/-- C9: for every run reaching the filter stage, the relevant summaries are an
order-preserving subsequence of the produced summaries; the produced summaries
(and hence the sources of a success response) are indexed by the discovery
order of their originating candidates, not by completion order; and a success
response lists exactly the relevant source links in that order. -/
theorem c9_source_order (env : Env) (items : List SearchItem)
    (sums : List ThreadSummary) (ev : List Event)
    (hs : env.searchOutcome = .ok items)
    (hrc : runCandidates env.world (discoverIds items []) = (.ok sums, ev)) :
    List.Sublist (relevantOf sums) sums
    ∧ sums = (discoverIds items []).filterMap (candSummary env.world)
    ∧ List.Sublist ((relevantOf sums).map ThreadSummary.source_link)
        (sums.map ThreadSummary.source_link)
    ∧ (relevantOf sums ≠ [] → ∃ f : Str,
        runPipeline env =
          (.success f ((relevantOf sums).map ThreadSummary.source_link)
              (calculateConfidence (relevantOf sums).length),
            Event.search :: (ev ++ [Event.synthesize]))) := by
  obtain ⟨so, world, synth⟩ := env
  have hs2 : so = Except.ok items := hs
  subst hs2
  replace hrc : runCandidates world (discoverIds items []) = (.ok sums, ev) := hrc
  have hsub : List.Sublist (relevantOf sums) sums := List.filter_sublist sums
  refine ⟨hsub, runCandidates_ok_filterMap world _ sums ev hrc,
    hsub.map ThreadSummary.source_link, ?_⟩
  intro hne
  have hnz : discoverIds items [] ≠ [] := by
    intro hz
    rw [hz] at hrc
    simp only [runCandidates, Prod.mk.injEq, Except.ok.injEq] at hrc
    rw [← hrc.1] at hne
    simp [relevantOf] at hne
  have hmain := runPipeline_reaches_filter items sums ev world synth hnz hrc
  have hrl : ¬ (relevantOf sums).length = 0 := by
    simpa [List.length_eq_zero] using hne
  rw [if_neg hrl, List.length_map] at hmain
  exact ⟨_, hmain⟩

section AbortLemmas

lemma runCandidates_abort (world : Str → CandidateWorld) :
    ∀ (pre : List Str) (bad : Str) (post : List Str) (e : JsError),
      (∀ i ∈ pre, ∃ o ev, processCandidate (world i) i = (.ok o, ev)) →
      (processCandidate (world bad) bad).1 = .error e →
      runCandidates world (pre ++ bad :: post) =
        (.error e,
          (pre.map fun i => (processCandidate (world i) i).2).flatten ++
            (processCandidate (world bad) bad).2) := by
  intro pre
  induction pre with
  | nil =>
    intro bad post e hpre hbad
    rcases hpc : processCandidate (world bad) bad with ⟨r, ev⟩
    rw [hpc] at hbad
    simp only at hbad
    subst hbad
    simp [runCandidates, hpc]
  | cons i pre' ih =>
    intro bad post e hpre hbad
    obtain ⟨o, ev1, hoc⟩ := hpre i (List.mem_cons_self i pre')
    simp only [List.cons_append, runCandidates, hoc, List.append_eq]
    rw [ih bad post e (fun j hj => hpre j (List.mem_cons_of_mem i hj)) hbad]
    simp [hoc, List.append_assoc]

end AbortLemmas

/-- C2: a per-candidate failure carrying `statusCode === 401` (the shape the
handler treats as an authentication rejection), whether from the forum fetch
or from the summarization call, makes it abort: the loop stops at the failing
candidate (the trace ends with its calls, none for later candidates) and the
whole request returns the 401 error response instead of any success payload;
any other per-candidate failure produces a skip (`ok none`) and processing
continues with the remaining identifiers unchanged. -/
theorem c2_auth_abort (env : Env) (items : List SearchItem)
    (pre post : List Str) (bad : Str) (e : JsError)
    (hs : env.searchOutcome = .ok items)
    (hids : discoverIds items [] = pre ++ bad :: post)
    (hpre : ∀ i ∈ pre, ∃ o ev, processCandidate (env.world i) i = (.ok o, ev))
    (hbad : (processCandidate (env.world bad) bad).1 = .error e) :
    runPipeline env =
      (.jsonError AUTH_FAILED_MSG 401,
        Event.search ::
          ((pre.map fun i => (processCandidate (env.world i) i).2).flatten ++
            (processCandidate (env.world bad) bad).2))
    ∧ (∀ (w : CandidateWorld) (i : Str) (er : JsError),
        w.fetchRes = .error er →
        (processCandidate w i).1 =
          if er.statusCode = some 401 then .error er else .ok none)
    ∧ (∀ (w : CandidateWorld) (i : Str) (er : JsError) (sub : Submission)
        (cs : List RedditComment),
        w.fetchRes = .ok sub → sub.comments = some cs → cs ≠ [] →
        w.summRes = .error er →
        (processCandidate w i).1 =
          if er.statusCode = some 401 then .error er else .ok none)
    ∧ (∀ (world2 : Str → CandidateWorld) (i : Str) (rest : List Str),
        (processCandidate (world2 i) i).1 = .ok none →
        runCandidates world2 (i :: rest) =
          ((runCandidates world2 rest).1,
            (processCandidate (world2 i) i).2 ++ (runCandidates world2 rest).2)) := by
  refine ⟨?_, ?_, ?_, ?_⟩
  · obtain ⟨so, world, synth⟩ := env
    have hs2 : so = Except.ok items := hs
    subst hs2
    replace hpre : ∀ i ∈ pre, ∃ o ev, processCandidate (world i) i = (.ok o, ev) := hpre
    replace hbad : (processCandidate (world bad) bad).1 = .error e := hbad
    have habort := runCandidates_abort world pre bad post e hpre hbad
    simp only [runPipeline, hids, habort]
    simp
  · intro w i er hw
    simp only [processCandidate, hw]
  · intro w i er sub cs hf hc hne hsr
    have hemp : cs.isEmpty = false := by simp [List.isEmpty_iff, hne]
    have htop : (topComments cs).isEmpty = false := by
      simp [List.isEmpty_iff, topComments_ne_nil hne]
    simp only [processCandidate, hf, hc, hemp, htop, Bool.false_eq_true,
      if_false, hsr]
  · intro world2 i rest hskip
    rcases hpc : processCandidate (world2 i) i with ⟨r, ev1⟩
    rw [hpc] at hskip
    simp only at hskip
    subst hskip
    rcases hrc2 : runCandidates world2 rest with ⟨r2, ev2⟩
    simp only [runCandidates, hpc, hrc2]
    rcases r2 with e2 | l <;> simp

section DiscoveryLemmas

lemma dedupFirst_sublist : ∀ xs seen : List Str,
    List.Sublist (dedupFirst xs seen) xs := by
  intro xs
  induction xs with
  | nil => intro seen; simp [dedupFirst]
  | cons x xs ih =>
    intro seen
    simp only [dedupFirst]
    split
    · exact List.Sublist.cons x (ih seen)
    · exact List.Sublist.cons₂ x (ih (seen ++ [x]))

lemma dedupFirst_nodup : ∀ xs seen : List Str,
    (dedupFirst xs seen).Nodup ∧ ∀ x ∈ dedupFirst xs seen, x ∉ seen := by
  intro xs
  induction xs with
  | nil => intro seen; simp [dedupFirst]
  | cons x xs ih =>
    intro seen
    simp only [dedupFirst]
    split
    · exact ih seen
    · rename_i hx
      obtain ⟨hnd, hdisj⟩ := ih (seen ++ [x])
      refine ⟨List.nodup_cons.mpr ⟨?_, hnd⟩, ?_⟩
      · intro hmem
        have h2 := hdisj x hmem
        simp at h2
      · intro y hy
        rcases List.mem_cons.mp hy with rfl | hy2
        · exact hx
        · intro hseen
          exact hdisj y hy2 (List.mem_append_left _ hseen)

lemma discoverIds_eq : ∀ (items : List SearchItem) (acc : List Str),
    acc.length < MAX_REDDIT_POSTS_TO_PROCESS →
    discoverIds items acc =
      acc ++ (dedupFirst (extractedIds items) acc).take
        (MAX_REDDIT_POSTS_TO_PROCESS - acc.length) := by
  intro items
  induction items with
  | nil => intro acc h; simp [discoverIds, extractedIds, dedupFirst]
  | cons item rest ih =>
    intro acc h
    simp only [MAX_REDDIT_POSTS_TO_PROCESS] at h ⊢
    simp only [discoverIds, extractedIds, List.filterMap_cons,
      MAX_REDDIT_POSTS_TO_PROCESS]
    rcases hlc : linkCandidate item with _ | i
    · simp only [hlc]
      rw [if_neg (by omega)]
      have ih2 := ih acc (by simp [MAX_REDDIT_POSTS_TO_PROCESS]; omega)
      simp only [extractedIds, MAX_REDDIT_POSTS_TO_PROCESS] at ih2
      exact ih2
    · simp only [hlc]
      by_cases hmem : i ∈ acc
      · simp only [if_pos hmem]
        rw [if_neg (by omega)]
        have ih2 := ih acc (by simp [MAX_REDDIT_POSTS_TO_PROCESS]; omega)
        simp only [extractedIds, MAX_REDDIT_POSTS_TO_PROCESS] at ih2
        rw [ih2]
        simp [dedupFirst, hmem]
      · simp only [if_neg hmem]
        have hdd : dedupFirst (i :: List.filterMap linkCandidate rest) acc =
            i :: dedupFirst (List.filterMap linkCandidate rest) (acc ++ [i]) := by
          simp [dedupFirst, hmem]
        rw [hdd]
        by_cases hbreak : 5 ≤ (acc ++ [i]).length
        · rw [if_pos hbreak]
          have hlen : 5 - acc.length = 1 := by
            simp only [List.length_append, List.length_cons, List.length_nil] at hbreak
            omega
          rw [hlen]
          simp
        · rw [if_neg hbreak]
          have h2 : (acc ++ [i]).length < 5 := by omega
          have ih2 := ih (acc ++ [i])
            (by simp only [MAX_REDDIT_POSTS_TO_PROCESS]; exact h2)
          simp only [extractedIds, MAX_REDDIT_POSTS_TO_PROCESS] at ih2
          rw [ih2]
          have hsub : 5 - acc.length = (5 - (acc ++ [i]).length) + 1 := by
            simp only [List.length_append, List.length_cons, List.length_nil] at h2 ⊢
            omega
          rw [hsub]
          simp [List.take_succ_cons]

lemma linkCandidate_some {item : SearchItem} {i : Str}
    (h : linkCandidate item = some i) :
    ∃ l, item.link = some l ∧ strIncludes l "reddit.com".toList = true ∧
      extractRedditSubmissionId l = some i := by
  obtain ⟨lo⟩ := item
  rcases lo with _ | l
  · simp [linkCandidate] at h
  · simp only [linkCandidate] at h
    split at h
    · rename_i hinc
      exact ⟨l, rfl, hinc, h⟩
    · simp at h

lemma matchAt_shape {s i : Str} (h : matchAt s = some i) :
    6 ≤ i.length ∧ i.length ≤ 10 ∧ ∀ c ∈ i, isIdChar c = true := by
  unfold matchAt at h
  dsimp only at h
  split at h
  · simp at h
  · split at h
    · simp at h
    · split at h
      · simp at h
      · split at h
        · rename_i hlen
          split at h
          · rw [Option.some_inj] at h
            subst h
            exact ⟨hlen.1, hlen.2, fun c hc => List.mem_takeWhile_imp hc⟩
          · split at h
            · rw [Option.some_inj] at h
              subst h
              exact ⟨hlen.1, hlen.2, fun c hc => List.mem_takeWhile_imp hc⟩
            · simp at h
        · simp at h

lemma findMatch_shape : ∀ {s i : Str}, findMatch s = some i →
    6 ≤ i.length ∧ i.length ≤ 10 ∧ ∀ c ∈ i, isIdChar c = true := by
  intro s
  induction s with
  | nil => intro i h; exact matchAt_shape h
  | cons c t ih =>
    intro i h
    simp only [findMatch] at h
    split at h
    · rename_i j hj
      rw [Option.some_inj] at h
      subst h
      exact matchAt_shape hj
    · exact ih h

end DiscoveryLemmas

/-- C6: the discovered candidate list is the first-occurrence deduplication of
the ids extracted from the search results (hence duplicate-free and in
first-occurrence order), truncated at `MAX_REDDIT_POSTS_TO_PROCESS` unique
ids; it is an order-preserving subsequence of the extracted-id stream, and
every member comes from an item whose link contains the forum domain and
matches the submission-URL pattern, with an alphanumeric id of 6 to 10
characters. -/
theorem c6_discovery (items : List SearchItem) :
    discoverIds items [] =
        (dedupFirst (extractedIds items) []).take MAX_REDDIT_POSTS_TO_PROCESS
    ∧ (discoverIds items []).Nodup
    ∧ (discoverIds items []).length ≤ MAX_REDDIT_POSTS_TO_PROCESS
    ∧ List.Sublist (discoverIds items []) (extractedIds items)
    ∧ ∀ i ∈ discoverIds items [],
        (∃ item ∈ items, ∃ l, item.link = some l ∧
            strIncludes l "reddit.com".toList = true ∧
            extractRedditSubmissionId l = some i)
        ∧ 6 ≤ i.length ∧ i.length ≤ 10 ∧ ∀ c ∈ i, isIdChar c = true := by
  have heq : discoverIds items [] =
      (dedupFirst (extractedIds items) []).take MAX_REDDIT_POSTS_TO_PROCESS := by
    have h0 := discoverIds_eq items [] (by simp [MAX_REDDIT_POSTS_TO_PROCESS])
    simpa using h0
  have hsub1 : List.Sublist (discoverIds items [])
      (dedupFirst (extractedIds items) []) := by
    rw [heq]
    exact List.take_sublist _ _
  have hsub2 : List.Sublist (discoverIds items []) (extractedIds items) :=
    hsub1.trans (dedupFirst_sublist _ _)
  refine ⟨heq, ((dedupFirst_nodup _ _).1).sublist hsub1, ?_, hsub2, ?_⟩
  · rw [heq, List.length_take]
    exact min_le_left _ _
  · intro i hi
    have hmem : i ∈ extractedIds items := hsub2.subset hi
    rw [extractedIds, List.mem_filterMap] at hmem
    obtain ⟨item, hitem, hlc⟩ := hmem
    obtain ⟨l, hl, hinc, hex⟩ := linkCandidate_some hlc
    exact ⟨⟨item, hitem, l, hl, hinc, hex⟩, findMatch_shape hex⟩

/-! Concrete sample data used to witness the theorems above on closed inputs. -/

/-- A search-result link pointing at a Reddit thread. -/
def sampleUrl : Str := "https://www.reddit.com/r/test/comments/abc123/foo".toList

/-- A search item carrying `sampleUrl`. -/
def sampleItem : SearchItem := ⟨some sampleUrl⟩

/-- The submission id extracted from `sampleUrl`. -/
def sampleId : Str := "abc123".toList

/-- A comment with score 5. -/
def sampleComment : RedditComment := ⟨"Use app X.".toList, some 5⟩

/-- A fetched submission with one comment. -/
def sampleSubmission : Submission :=
  ⟨some "/r/test/comments/abc123/foo/".toList, "Title".toList, none,
    some [sampleComment]⟩

/-- A summary text that passes the relevance filter. -/
def sampleSummaryText : Str := "Use app X for budgeting.".toList

/-- The link derived from `sampleSubmission`. -/
def sampleLink : Str :=
  "https://reddit.com/r/test/comments/abc123/foo/".toList

/-- The summary record produced for `sampleId`. -/
def sampleSummary : ThreadSummary := ⟨sampleSummaryText, sampleLink⟩

/-- Oracles for a run where fetch and summarization both succeed. -/
def sampleWorld : Str → CandidateWorld :=
  fun _ => ⟨.ok sampleSubmission, .ok (some sampleSummaryText)⟩

/-- A fully successful run. -/
def sampleEnv : Env := ⟨.ok [sampleItem], sampleWorld, .ok (some "Use app X.".toList)⟩

/-- A run whose search returns no items. -/
def emptySearchEnv : Env := ⟨.ok [], sampleWorld, .ok none⟩

/-- Oracles where every fetch fails with a non-401 error. -/
def skipWorld : Str → CandidateWorld := fun _ => ⟨.error ⟨some 500⟩, .ok none⟩

/-- A run where the only candidate is skipped, so nothing passes the filter. -/
def unanswerableEnv : Env := ⟨.ok [sampleItem], skipWorld, .ok none⟩

/-- Oracles where every fetch fails with `statusCode` 401. -/
def authWorld : Str → CandidateWorld := fun _ => ⟨.error ⟨some 401⟩, .ok none⟩

/-- A run aborted by an authentication failure. -/
def authEnv : Env := ⟨.ok [sampleItem], authWorld, .ok none⟩

/-- A run where synthesis throws. -/
def synthFailEnv : Env := ⟨.ok [sampleItem], sampleWorld, .error ⟨some 500⟩⟩

/-- Witness for the confidence-formula theorem at a concrete one-source run. -/
theorem c1_confidence_formula_witness :
    (60 : Nat) = min (50 + 10 * ([sampleLink] : List Str).length) 95
    ∧ calculateConfidence 1 = 60 ∧ calculateConfidence 3 = 80
    ∧ ∀ n : Nat, calculateConfidence n ≤ 95 :=
  c1_confidence_formula sampleEnv "Use app X.".toList [sampleLink] 60
    [Event.search, Event.fetch sampleId, Event.summarize sampleId,
      Event.synthesize]
    (by rfl) (by simp)

/-- Witness for the auth-abort theorem at a concrete 401 run. -/
theorem c2_auth_abort_witness :
    runPipeline authEnv =
      (.jsonError AUTH_FAILED_MSG 401,
        Event.search ::
          ((([] : List Str).map
              fun i => (processCandidate (authEnv.world i) i).2).flatten ++
            (processCandidate (authEnv.world sampleId) sampleId).2))
    ∧ (∀ (w : CandidateWorld) (i : Str) (er : JsError),
        w.fetchRes = .error er →
        (processCandidate w i).1 =
          if er.statusCode = some 401 then .error er else .ok none)
    ∧ (∀ (w : CandidateWorld) (i : Str) (er : JsError) (sub : Submission)
        (cs : List RedditComment),
        w.fetchRes = .ok sub → sub.comments = some cs → cs ≠ [] →
        w.summRes = .error er →
        (processCandidate w i).1 =
          if er.statusCode = some 401 then .error er else .ok none)
    ∧ (∀ (world2 : Str → CandidateWorld) (i : Str) (rest : List Str),
        (processCandidate (world2 i) i).1 = .ok none →
        runCandidates world2 (i :: rest) =
          ((runCandidates world2 rest).1,
            (processCandidate (world2 i) i).2 ++ (runCandidates world2 rest).2)) :=
  c2_auth_abort authEnv [sampleItem] [] [] sampleId ⟨some 401⟩
    rfl (by rfl) (by simp) rfl

/-- Witness for the empty-discovery theorem at a run with zero search items. -/
theorem c3_no_candidates_witness :
    runPipeline emptySearchEnv =
      (.success
          "Could not find relevant Reddit discussions via Google for this question.".toList
          [] 0,
        [Event.search]) :=
  c3_no_candidates emptySearchEnv [] rfl rfl

/-- Witness for the unanswerable theorem at a run whose only candidate is
skipped by a non-401 fetch failure. -/
theorem c4_unanswerable_witness :
    runPipeline unanswerableEnv =
      (.success UNANSWERABLE_MSG [] 15, Event.search :: [Event.fetch sampleId])
    ∧ Event.synthesize ∉ (runPipeline unanswerableEnv).2 :=
  c4_unanswerable unanswerableEnv [sampleItem] [] [Event.fetch sampleId]
    rfl (by decide) (by rfl) rfl

/-- Witness for the synthesis-degradation theorem at a run whose synthesis
call throws. -/
theorem c8_synthesis_degrades_witness :
    (∃ f : Str, runPipeline synthFailEnv =
        (.success f ((relevantOf [sampleSummary]).map ThreadSummary.source_link)
            (calculateConfidence (relevantOf [sampleSummary]).length),
          Event.search ::
            ([Event.fetch sampleId, Event.summarize sampleId] ++
              [Event.synthesize])))
    ∧ (∀ er : JsError, synthFailEnv.synthOutcome = .error er →
        runPipeline synthFailEnv =
          (.success SYNTH_ERROR_MSG
              ((relevantOf [sampleSummary]).map ThreadSummary.source_link)
              (calculateConfidence (relevantOf [sampleSummary]).length),
            Event.search ::
              ([Event.fetch sampleId, Event.summarize sampleId] ++
                [Event.synthesize])))
    ∧ (synthFailEnv.synthOutcome = .ok none →
        runPipeline synthFailEnv =
          (.success NO_SYNTH_MSG
              ((relevantOf [sampleSummary]).map ThreadSummary.source_link)
              (calculateConfidence (relevantOf [sampleSummary]).length),
            Event.search ::
              ([Event.fetch sampleId, Event.summarize sampleId] ++
                [Event.synthesize])))
    ∧ (∀ c : Str, synthFailEnv.synthOutcome = .ok (some c) → jsTrim c = [] →
        runPipeline synthFailEnv =
          (.success NO_SYNTH_MSG
              ((relevantOf [sampleSummary]).map ThreadSummary.source_link)
              (calculateConfidence (relevantOf [sampleSummary]).length),
            Event.search ::
              ([Event.fetch sampleId, Event.summarize sampleId] ++
                [Event.synthesize]))) :=
  c8_synthesis_degrades synthFailEnv [sampleItem] [sampleSummary]
    [Event.fetch sampleId, Event.summarize sampleId]
    rfl (by decide) (by rfl) (by decide)

/-- Witness for the ordering theorem at a fully successful one-candidate run. -/
theorem c9_source_order_witness :
    List.Sublist (relevantOf [sampleSummary]) [sampleSummary]
    ∧ [sampleSummary] =
        (discoverIds [sampleItem] []).filterMap (candSummary sampleEnv.world)
    ∧ List.Sublist ((relevantOf [sampleSummary]).map ThreadSummary.source_link)
        ([sampleSummary].map ThreadSummary.source_link)
    ∧ (relevantOf [sampleSummary] ≠ [] → ∃ f : Str,
        runPipeline sampleEnv =
          (.success f ((relevantOf [sampleSummary]).map ThreadSummary.source_link)
              (calculateConfidence (relevantOf [sampleSummary]).length),
            Event.search ::
              ([Event.fetch sampleId, Event.summarize sampleId] ++
                [Event.synthesize]))) :=
  c9_source_order sampleEnv [sampleItem] [sampleSummary]
    [Event.fetch sampleId, Event.summarize sampleId] rfl (by rfl)

/-- Witness for the non-empty-truncation theorem at the sample submission. -/
theorem c10_topk_nonempty_witness :
    topComments [sampleComment] ≠ []
    ∧ Event.summarize sampleId ∈
        (processCandidate (sampleWorld sampleId) sampleId).2 :=
  c10_topk_nonempty (sampleWorld sampleId) sampleId sampleSubmission
    [sampleComment] rfl rfl (by simp)

end RedditSummarizer
